import Mathlib

/-!
Shallow embedding of the chacha20poly1305 AEAD composition layer
(package `chacha20poly1305`, file `chacha20poly1305.go`).

Bytes are modelled as `Nat` (values < 256 where relevant; `Nat.xor` and
`Nat.lor` agree with byte operations on such values).  The two external
collaborators are abstracted exactly as the spec's §6 describes them:

* the stream cipher is a deterministic keystream `KS : key → nonce → index → byte`;
  a `chacha20.Cipher` after `chacha20.New(key, nonce)` is a position into this
  stream, and `XORKeyStream(dst, src)` xors `len(src)` keystream bytes starting
  at the current position into `src`, advancing the position;
* the one-time MAC is a deterministic function `MAC : key → message → tag`
  (poly1305 guarantees `(MAC k m).length = 16`; theorems that need this carry
  it as a hypothesis `hMAC`).

Go byte slices handed to `Seal`/`Open` as `dst` are modelled by the pair
(`dst` : the bytes in `[0, len)`, `spare` : the caller-visible backing bytes in
`[len, cap)`).  `sliceForAppend` reuses the backing array exactly when
`n ≤ spare.length` (Go: `cap(in) ≥ len(in)+n`); the second component of the
results of `Seal`/`Open` is the final state of the `spare` region, which is how
buffer mutation (or its absence, on error paths) is observed.
-/

namespace Chacha20Poly1305

/-- Errors of the package: `ErrAuthFailed`, `ErrInvalidKey`, `ErrInvalidNonce`.
`Seal` panics rather than returning an error; a panic with value `e` is
modelled as `Except.error e` (nothing is written before any panic). -/
inductive Error where
  | AuthFailed
  | InvalidKey
  | InvalidNonce
deriving DecidableEq, Repr

instance {α β : Type} [DecidableEq α] [DecidableEq β] :
    DecidableEq (Except α β) := fun x y =>
  match x, y with
  | .ok a, .ok b =>
    if h : a = b then isTrue (by rw [h])
    else isFalse (by intro hc; cases hc; exact h rfl)
  | .error a, .error b =>
    if h : a = b then isTrue (by rw [h])
    else isFalse (by intro hc; cases hc; exact h rfl)
  | .ok _, .error _ => isFalse (by intro hc; cases hc)
  | .error _, .ok _ => isFalse (by intro hc; cases hc)

/-- `chacha20.KeySize` (32 bytes = 256 bits). -/
def KeySize : Nat := 32

/-- `poly1305.TagSize`. -/
def TagSize : Nat := 16

/-- `poly1305PadLen` from the source. -/
def poly1305PadLen : Nat := 16

/-- `chacha20.DraftNonceSize`. -/
def DraftNonceSize : Nat := 8

/-- `chacha20.RFCNonceSize`. -/
def RFCNonceSize : Nat := 12

/-- The `chacha20Key` struct: the 256-bit key and the variant flag
(`draft` true = draft-agl-tls-chacha20poly1305-03, false = RFC 7539). -/
structure chacha20Key where
  key : List Nat
  draft : Bool
deriving DecidableEq, Repr

/-- `(*chacha20Key).NonceSize`. -/
def NonceSize (k : chacha20Key) : Nat :=
  if k.draft then DraftNonceSize else RFCNonceSize

/-- `(*chacha20Key).Overhead`: always `poly1305.TagSize`. -/
def Overhead : Nat := TagSize

/-- `NewRFC`: checks the key length, copies the key, `draft = false`. -/
def NewRFC (key : List Nat) : Except Error chacha20Key :=
  if key.length ≠ KeySize then .error .InvalidKey
  else .ok ⟨key, false⟩

/-- `NewDraft`: checks the key length, copies the key, `draft = true`. -/
def NewDraft (key : List Nat) : Except Error chacha20Key :=
  if key.length ≠ KeySize then .error .InvalidKey
  else .ok ⟨key, true⟩

/-- `New`: `return NewDraft(key)`. -/
def New (key : List Nat) : Except Error chacha20Key :=
  NewDraft key

/-- One `XORKeyStream` call of the stream-cipher collaborator: xor the bytes
of `src` with consecutive keystream bytes starting at stream position `pos`. -/
def xorKeystream (ks : Nat → Nat) (pos : Nat) : List Nat → List Nat
  | [] => []
  | b :: rest => (b ^^^ ks pos) :: xorKeystream ks (pos + 1) rest

/-- `binary.Write(m, binary.LittleEndian, uint64(n))`: the 8-byte
little-endian encoding of `n` (as a `uint64`, i.e. of `n % 2^64`). -/
def le64 (n : Nat) : List Nat :=
  (List.range 8).map fun i => n / 256 ^ i % 256

/-- The padding length computed inside `auth` for the RFC variant:
`p := len % poly1305PadLen; if p != 0 { p = poly1305PadLen - p }`. -/
def padLen (n : Nat) : Nat :=
  let p := n % poly1305PadLen
  if p ≠ 0 then poly1305PadLen - p else p

/-- The byte sequence written into the poly1305 MAC by `(*chacha20Key).auth`
(the sequence of `m.Write`/`binary.Write` calls, in order). -/
def authMessage (draft : Bool) (ciphertext data : List Nat) : List Nat :=
  if draft then
    data ++ le64 data.length ++ ciphertext ++ le64 ciphertext.length
  else
    data ++ List.replicate (padLen data.length) 0 ++
      ciphertext ++ List.replicate (padLen ciphertext.length) 0 ++
      le64 data.length ++ le64 ciphertext.length

/-- `(*chacha20Key).auth`: key the MAC collaborator with the 32-byte one-time
key, feed it the framed message, and take the 16-byte sum. -/
def auth (MAC : List Nat → List Nat → List Nat) (k : chacha20Key)
    (key ciphertext data : List Nat) : List Nat :=
  MAC key (authMessage k.draft ciphertext data)

/-- The loop of `subtle.ConstantTimeCompare`:
`for i { v |= x[i] ^ y[i] }`.  The model also counts the loop iterations
(second component) so that independence of the iteration count from the byte
values is provable. -/
def ctLoop (v : Nat) : List Nat → List Nat → Nat × Nat
  | a :: as, b :: bs =>
    let r := ctLoop (v ||| (a ^^^ b)) as bs
    (r.1, r.2 + 1)
  | _, _ => (v, 0)

/-- `subtle.ConstantTimeCompare`: 0 if the lengths differ, else run the
non-short-circuiting or-of-xors loop over all bytes and return 1 iff the
accumulator is 0. -/
def ConstantTimeCompare (x y : List Nat) : Nat :=
  if x.length = y.length then
    if (ctLoop 0 x y).1 = 0 then 1 else 0
  else 0

/-- `(*chacha20Key).Seal(dst, nonce, plaintext, data)`.
Steps, in source order: nonce-length check (panic `ErrInvalidNonce`);
`chacha20.New` (panics on a wrong-size key — "basically impossible" through
the public constructors); `sliceForAppend(dst, len(plaintext)+TagSize)`;
generate 64 reserved keystream bytes into `pk`; encrypt the plaintext;
`auth` writes the tag after the ciphertext.  The first component is the
returned slice's contents, the second the final state of `dst`'s spare
capacity region. -/
def Seal (KS : List Nat → List Nat → Nat → Nat)
    (MAC : List Nat → List Nat → List Nat) (k : chacha20Key)
    (dst spare nonce plaintext data : List Nat) :
    Except Error (List Nat) × List Nat :=
  if nonce.length ≠ NonceSize k then (.error .InvalidNonce, spare)
  else if k.key.length ≠ KeySize then (.error .InvalidKey, spare)
  else
    let ks := KS k.key nonce
    let pk := xorKeystream ks 0 (List.replicate 64 0)
    let out := xorKeystream ks 64 plaintext
    let tag := auth MAC k (pk.take 32) out data
    let n := plaintext.length + TagSize
    (.ok (dst ++ out ++ tag),
     if n ≤ spare.length then out ++ tag ++ spare.drop n else spare)

/-- `(*chacha20Key).Open(dst, nonce, ciphertext, data)`.
Steps, in source order: nonce-length check (`ErrInvalidNonce`); minimum-length
check (`ErrAuthFailed`); split off the trailing tag; `chacha20.New`; generate
the same 64 reserved keystream bytes; recompute the expected tag; constant-time
compare; only then `sliceForAppend` and decrypt.  Components as in `Seal`. -/
def Open (KS : List Nat → List Nat → Nat → Nat)
    (MAC : List Nat → List Nat → List Nat) (k : chacha20Key)
    (dst spare nonce ciphertext data : List Nat) :
    Except Error (List Nat) × List Nat :=
  if nonce.length ≠ NonceSize k then (.error .InvalidNonce, spare)
  else if ciphertext.length < TagSize then (.error .AuthFailed, spare)
  else
    let tag := ciphertext.drop (ciphertext.length - TagSize)
    let ct := ciphertext.take (ciphertext.length - TagSize)
    if k.key.length ≠ KeySize then (.error .InvalidKey, spare)
    else
      let ks := KS k.key nonce
      let pk := xorKeystream ks 0 (List.replicate 64 0)
      let expectedTag := auth MAC k (pk.take 32) ct data
      if ConstantTimeCompare expectedTag tag ≠ 1 then (.error .AuthFailed, spare)
      else
        let out := xorKeystream ks 64 ct
        (.ok (dst ++ out),
         if ct.length ≤ spare.length then out ++ spare.drop ct.length else spare)

/-- Spec-side padding ("zero-padded up to the next multiple of 16 bytes"),
for comparison with the source's `padLen`. -/
def pad16Spec (n : Nat) : Nat :=
  16 * ((n + 15) / 16) - n

/-- Spec-side MAC frame, written from the spec's framing table:
draft `AAD ‖ len(AAD) ‖ ciphertext ‖ len(ciphertext)`, RFC-style
`AAD ‖ pad(AAD) ‖ ciphertext ‖ pad(ciphertext) ‖ len(AAD) ‖ len(ciphertext)`,
for comparison with the source's `authMessage`. -/
def authMessageSpec (draft : Bool) (ciphertext data : List Nat) : List Nat :=
  if draft then
    data ++ le64 data.length ++ ciphertext ++ le64 ciphertext.length
  else
    data ++ List.replicate (pad16Spec data.length) 0 ++
      ciphertext ++ List.replicate (pad16Spec ciphertext.length) 0 ++
      le64 data.length ++ le64 ciphertext.length

/-- Little-endian value of a byte string (to state that `le64` is an
encoding of the length). -/
def le64Val (bs : List Nat) : Nat :=
  bs.foldr (fun b acc => b + 256 * acc) 0

/-- A `Seal` written from the words of the claim that the RFC-style variant
reserves only 32 keystream bytes before encrypting (so encryption would begin
at stream position 32), for comparison with the source's `Seal`. -/
def SealRFC32 (KS : List Nat → List Nat → Nat → Nat)
    (MAC : List Nat → List Nat → List Nat) (k : chacha20Key)
    (dst spare nonce plaintext data : List Nat) :
    Except Error (List Nat) × List Nat :=
  if nonce.length ≠ NonceSize k then (.error .InvalidNonce, spare)
  else if k.key.length ≠ KeySize then (.error .InvalidKey, spare)
  else
    let ks := KS k.key nonce
    let pk := xorKeystream ks 0 (List.replicate 32 0)
    let out := xorKeystream ks 32 plaintext
    let tag := auth MAC k (pk.take 32) out data
    let n := plaintext.length + TagSize
    (.ok (dst ++ out ++ tag),
     if n ≤ spare.length then out ++ tag ++ spare.drop n else spare)

/-- Concrete keystream instance used in witnesses and counterexamples:
keystream byte `i` is `i % 256`. -/
def KS0 : List Nat → List Nat → Nat → Nat :=
  fun _ _ i => i % 256

/-- Concrete MAC instance used in witnesses and counterexamples: a 16-byte
tag determined by the message length. -/
def MAC0 : List Nat → List Nat → List Nat :=
  fun _ msg => List.replicate 16 (msg.length % 256)

/-! ### Basic lemmas about the model -/

theorem xorKeystream_length (ks : Nat → Nat) (pos : Nat) (l : List Nat) :
    (xorKeystream ks pos l).length = l.length := by
  induction l generalizing pos with
  | nil => rfl
  | cons b rest ih => simp [xorKeystream, ih]

theorem xorKeystream_xorKeystream (ks : Nat → Nat) (pos : Nat) (l : List Nat) :
    xorKeystream ks pos (xorKeystream ks pos l) = l := by
  induction l generalizing pos with
  | nil => rfl
  | cons b rest ih =>
    simp [xorKeystream, ih, Nat.xor_cancel_right]

theorem xorKeystream_replicate_zero (ks : Nat → Nat) (pos m : Nat) :
    xorKeystream ks pos (List.replicate m 0) =
      (List.range m).map fun i => ks (pos + i) := by
  induction m generalizing pos with
  | zero => rfl
  | succ m ih =>
    rw [List.replicate_succ, List.range_succ_eq_map]
    simp only [xorKeystream, ih, List.map_cons, List.map_map, Nat.zero_xor,
      List.cons.injEq]
    refine ⟨by rw [Nat.add_zero], ?_⟩
    apply List.map_congr_left
    intro i _
    simp only [Function.comp_apply]
    congr 1
    omega

theorem ctLoop_snd (x : List Nat) :
    ∀ (y : List Nat) (v : Nat), (ctLoop v x y).2 = min x.length y.length := by
  induction x with
  | nil => intro y v; cases y <;> simp [ctLoop]
  | cons a as ih =>
    intro y v
    cases y with
    | nil => simp [ctLoop]
    | cons b bs => simp [ctLoop, ih, Nat.succ_min_succ]

theorem lor_eq_zero_iff (a b : Nat) : a ||| b = 0 ↔ a = 0 ∧ b = 0 := by
  constructor
  · intro h
    have hbit : ∀ i, a.testBit i = false ∧ b.testBit i = false := by
      intro i
      have := congrArg (fun n => Nat.testBit n i) h
      simpa [Nat.testBit_or] using this
    exact ⟨Nat.eq_of_testBit_eq fun i => by simp [(hbit i).1],
           Nat.eq_of_testBit_eq fun i => by simp [(hbit i).2]⟩
  · rintro ⟨rfl, rfl⟩
    rfl

theorem ctLoop_fst_eq_zero (x : List Nat) :
    ∀ (y : List Nat) (v : Nat), x.length = y.length →
      ((ctLoop v x y).1 = 0 ↔ v = 0 ∧ x = y) := by
  induction x with
  | nil =>
    intro y v h
    cases y with
    | nil => simp [ctLoop]
    | cons b bs => simp at h
  | cons a as ih =>
    intro y v h
    cases y with
    | nil => simp at h
    | cons b bs =>
      simp only [List.length_cons, Nat.succ.injEq] at h
      simp only [ctLoop]
      rw [ih bs _ h, lor_eq_zero_iff, Nat.xor_eq_zero]
      constructor
      · rintro ⟨⟨hv, hab⟩, hrest⟩
        exact ⟨hv, by simp [hab, hrest]⟩
      · rintro ⟨hv, heq⟩
        simp only [List.cons.injEq] at heq
        exact ⟨⟨hv, heq.1⟩, heq.2⟩

theorem ConstantTimeCompare_eq_one_iff (x y : List Nat)
    (h : x.length = y.length) : ConstantTimeCompare x y = 1 ↔ x = y := by
  rw [ConstantTimeCompare, if_pos h]
  constructor
  · intro h1
    by_cases hz : (ctLoop 0 x y).1 = 0
    · exact ((ctLoop_fst_eq_zero x y 0 h).1 hz).2
    · rw [if_neg hz] at h1
      exact absurd h1 (by norm_num)
  · intro hxy
    rw [if_pos ((ctLoop_fst_eq_zero x y 0 h).2 ⟨rfl, hxy⟩)]

theorem ConstantTimeCompare_self (x : List Nat) :
    ConstantTimeCompare x x = 1 :=
  (ConstantTimeCompare_eq_one_iff x x rfl).2 rfl

theorem padLen_eq_pad16Spec (n : Nat) : padLen n = pad16Spec n := by
  simp only [padLen, pad16Spec, poly1305PadLen]
  split <;> omega

theorem le64_length (n : Nat) : (le64 n).length = 8 := by
  simp [le64]

theorem le64Val_le64 (n : Nat) : le64Val (le64 n) = n % 2 ^ 64 := by
  have h8 : List.range 8 = [0, 1, 2, 3, 4, 5, 6, 7] := rfl
  rw [le64, h8]
  simp only [List.map_cons, List.map_nil, le64Val, List.foldr_cons, List.foldr_nil]
  norm_num
  omega

theorem take32_reserved (ks : Nat → Nat) :
    (xorKeystream ks 0 (List.replicate 64 0)).take 32 = (List.range 32).map ks := by
  rw [xorKeystream_replicate_zero, ← List.map_take, List.take_range]
  apply List.map_congr_left
  intro i _
  rw [Nat.zero_add]

theorem Open_error_snd (KS : List Nat → List Nat → Nat → Nat)
    (MAC : List Nat → List Nat → List Nat) (k : chacha20Key)
    (dst spare nonce ciphertext data : List Nat) (e : Error) :
    (Open KS MAC k dst spare nonce ciphertext data).1 = .error e →
      (Open KS MAC k dst spare nonce ciphertext data).2 = spare := by
  unfold Open
  dsimp only
  split
  · intro _; rfl
  · split
    · intro _; rfl
    · split
      · intro _; rfl
      · split
        · intro _; rfl
        · intro h; simp at h

theorem Open_valid_tag (KS : List Nat → List Nat → Nat → Nat)
    (MAC : List Nat → List Nat → List Nat) (k : chacha20Key)
    (dst spare nonce ct data : List Nat)
    (hn : nonce.length = NonceSize k) (hkey : k.key.length = KeySize)
    (htag : (auth MAC k
      ((xorKeystream (KS k.key nonce) 0 (List.replicate 64 0)).take 32) ct
      data).length = TagSize) :
    Open KS MAC k dst spare nonce
        (ct ++ auth MAC k
          ((xorKeystream (KS k.key nonce) 0 (List.replicate 64 0)).take 32) ct
          data) data =
      (.ok (dst ++ xorKeystream (KS k.key nonce) 64 ct),
       if ct.length ≤ spare.length then
         xorKeystream (KS k.key nonce) 64 ct ++ spare.drop ct.length
       else spare) := by
  set tg := auth MAC k
    ((xorKeystream (KS k.key nonce) 0 (List.replicate 64 0)).take 32) ct data
    with htg
  have hlen : (ct ++ tg).length = ct.length + TagSize := by
    simp [htag]
  have hsub : (ct ++ tg).length - TagSize = ct.length := by omega
  have htake : (ct ++ tg).take ((ct ++ tg).length - TagSize) = ct := by
    rw [hsub, List.take_left]
  have hdrop : (ct ++ tg).drop ((ct ++ tg).length - TagSize) = tg := by
    rw [hsub, List.drop_left]
  rw [Open, if_neg (by simp [hn]), if_neg (by simp [hlen, TagSize]),
    if_neg (by simp [hkey])]
  simp only [htake, hdrop, ← htg, ConstantTimeCompare_self]
  rw [if_neg (by simp)]

/-! ### Claim theorems -/

/-- C2: the byte sequence fed to the one-time MAC is, in the draft variant,
AAD ‖ len(AAD) ‖ ciphertext ‖ len(ciphertext) with no padding; in the
RFC-style variant, AAD zero-padded to the next multiple of 16 bytes, then
ciphertext zero-padded to the next multiple of 16 bytes, then len(AAD) then
len(ciphertext); both lengths are 8-byte little-endian unsigned integers,
and an input already a multiple of 16 bytes receives no padding. -/
theorem mac_framing :
    (∀ (d : Bool) (ct data : List Nat),
      authMessage d ct data = authMessageSpec d ct data) ∧
    (∀ n, (le64 n).length = 8 ∧ le64Val (le64 n) = n % 2 ^ 64) ∧
    (∀ n, n % 16 = 0 → pad16Spec n = 0) ∧
    (∀ n, (n + pad16Spec n) % 16 = 0) := by
  refine ⟨?_, fun n => ⟨le64_length n, le64Val_le64 n⟩, ?_, ?_⟩
  · intro d ct data
    cases d <;> simp [authMessage, authMessageSpec, padLen_eq_pad16Spec]
  · intro n hn
    simp only [pad16Spec]
    omega
  · intro n
    simp only [pad16Spec]
    omega

/-- Witness for C2 at concrete inputs. -/
theorem mac_framing_witness :
    authMessage true [1, 2] [3] = authMessageSpec true [1, 2] [3] ∧
    pad16Spec 32 = 0 :=
  ⟨mac_framing.1 true [1, 2] [3], mac_framing.2.2.1 32 (by decide)⟩

/-- C6: for every input to `Open` shorter than the 16-byte tag (including
empty) and every valid nonce, `Open` returns `ErrAuthFailed`; it is a total
function of its list arguments (no panic, no out-of-bounds access) and the
destination buffer is untouched. -/
theorem open_truncated_input (KS : List Nat → List Nat → Nat → Nat)
    (MAC : List Nat → List Nat → List Nat) (k : chacha20Key)
    (dst spare nonce ciphertext data : List Nat)
    (hn : nonce.length = NonceSize k) (hshort : ciphertext.length < TagSize) :
    Open KS MAC k dst spare nonce ciphertext data =
      (.error .AuthFailed, spare) := by
  rw [Open, if_neg (by simp [hn]), if_pos hshort]

/-- Witness for C6: opening the empty input fails with `AuthFailed`. -/
theorem open_truncated_input_witness :
    Open KS0 MAC0 ⟨List.replicate 32 0, true⟩ [] [5] (List.replicate 8 0)
      [] [] = (.error .AuthFailed, [5]) :=
  open_truncated_input KS0 MAC0 _ _ _ _ _ _ (by decide) (by decide)

/-- C7: for every nonce whose length differs from the engine's `NonceSize`,
`Seal` aborts with the `ErrInvalidNonce` panic value before producing any
output and `Open` returns `ErrInvalidNonce`; in both cases no keystream is
consumed and nothing is written (the spare capacity region is unchanged). -/
theorem invalid_nonce_rejected (KS : List Nat → List Nat → Nat → Nat)
    (MAC : List Nat → List Nat → List Nat) (k : chacha20Key)
    (dst spare spare2 nonce plaintext ciphertext data : List Nat)
    (hn : nonce.length ≠ NonceSize k) :
    Seal KS MAC k dst spare nonce plaintext data =
      (.error .InvalidNonce, spare) ∧
    Open KS MAC k dst spare2 nonce ciphertext data =
      (.error .InvalidNonce, spare2) :=
  ⟨by rw [Seal, if_pos hn], by rw [Open, if_pos hn]⟩

/-- Witness for C7 at a concrete empty nonce against a draft engine. -/
theorem invalid_nonce_rejected_witness :
    Seal KS0 MAC0 ⟨List.replicate 32 0, true⟩ [] [9] [] [1] [2] =
      (.error .InvalidNonce, [9]) ∧
    Open KS0 MAC0 ⟨List.replicate 32 0, true⟩ [] [8] [] [3] [2] =
      (.error .InvalidNonce, [8]) :=
  invalid_nonce_rejected KS0 MAC0 _ _ _ _ _ _ _ _ (by decide)

/-- C8: the tag comparison in `Open` is `subtle.ConstantTimeCompare`, a
fixed-iteration, non-short-circuiting or-of-xors over the full 16-byte tag
length: the loop runs exactly 16 iterations whatever the byte values (so its
running time and exit point do not depend on which byte differs), and its
result is 1 exactly when the tags are equal. -/
theorem tag_compare_constant_time (x y : List Nat)
    (hx : x.length = TagSize) (hy : y.length = TagSize) :
    (ctLoop 0 x y).2 = TagSize ∧
    (ConstantTimeCompare x y = 1 ↔ x = y) := by
  constructor
  · rw [ctLoop_snd, hx, hy]
    simp
  · exact ConstantTimeCompare_eq_one_iff x y (hx.trans hy.symm)

/-- Witness for C8: two 16-byte tags differing only in the last byte. -/
theorem tag_compare_constant_time_witness :
    (ctLoop 0 (List.replicate 16 0) (List.replicate 15 0 ++ [1])).2 = TagSize ∧
    (ConstantTimeCompare (List.replicate 16 0) (List.replicate 15 0 ++ [1]) = 1 ↔
      List.replicate 16 0 = List.replicate 15 0 ++ [1]) :=
  tag_compare_constant_time _ _ (by decide) (by decide)

/-- C9: on every error path of `Open` (wrong nonce length, input shorter than
the tag, stream-cipher construction failure, or tag mismatch) the result
carries no plaintext (it is an `error`, the model of Go's `nil, err`) and the
caller-supplied destination buffer is byte-for-byte unchanged: the tag is
verified before any decryption, so nothing is speculatively written. -/
theorem open_error_paths_frame (KS : List Nat → List Nat → Nat → Nat)
    (MAC : List Nat → List Nat → List Nat) (k : chacha20Key)
    (dst spare nonce ciphertext data : List Nat) (e : Error)
    (h : (Open KS MAC k dst spare nonce ciphertext data).1 = .error e) :
    (Open KS MAC k dst spare nonce ciphertext data).2 = spare :=
  Open_error_snd KS MAC k dst spare nonce ciphertext data e h

/-- Witness for C9 on the wrong-nonce-length path. -/
theorem open_error_paths_frame_witness :
    (Open KS0 MAC0 ⟨List.replicate 32 0, true⟩ [] [7] [] [] []).2 = [7] :=
  open_error_paths_frame KS0 MAC0 _ [] [7] [] [] [] .InvalidNonce (by decide)

/-- C10: `New` is `NewDraft`: the same error on an invalid key, and on a
valid key the same draft-variant engine, so all engine methods coincide with
those of a `NewDraft` engine for the same key. -/
theorem new_equals_newDraft (key : List Nat) :
    New key = NewDraft key ∧
    ∀ k', New key = .ok k' → k'.draft = true ∧ NonceSize k' = DraftNonceSize := by
  refine ⟨rfl, fun k' h => ?_⟩
  unfold New NewDraft at h
  split at h
  · exact absurd h (by simp)
  · injection h with h'
    subst h'
    exact ⟨rfl, rfl⟩

/-- Witness for C10 at the all-zero 32-byte key. -/
theorem new_equals_newDraft_witness :
    New (List.replicate 32 0) = NewDraft (List.replicate 32 0) ∧
    ((⟨List.replicate 32 0, true⟩ : chacha20Key).draft = true ∧
      NonceSize ⟨List.replicate 32 0, true⟩ = DraftNonceSize) :=
  ⟨(new_equals_newDraft (List.replicate 32 0)).1,
   (new_equals_newDraft (List.replicate 32 0)).2 ⟨List.replicate 32 0, true⟩
     (by decide)⟩

/-- C1: for every 32-byte key, every nonce of the engine's `NonceSize`, every
plaintext and associated data, and both variants (`k.draft` arbitrary),
`Seal` succeeds and `Open` applied to its output with the same key, nonce and
associated data returns the original plaintext with no error. -/
theorem seal_open_roundtrip (KS : List Nat → List Nat → Nat → Nat)
    (MAC : List Nat → List Nat → List Nat)
    (hMAC : ∀ key msg, (MAC key msg).length = TagSize) (k : chacha20Key)
    (spare spare2 nonce plaintext data : List Nat)
    (hn : nonce.length = NonceSize k) (hkey : k.key.length = KeySize) :
    (∀ e, (Seal KS MAC k [] spare nonce plaintext data).1 ≠ .error e) ∧
    (∀ out, (Seal KS MAC k [] spare nonce plaintext data).1 = .ok out →
      (Open KS MAC k [] spare2 nonce out data).1 = .ok plaintext) := by
  have hseal : (Seal KS MAC k [] spare nonce plaintext data).1 =
      .ok (xorKeystream (KS k.key nonce) 64 plaintext ++
        auth MAC k
          ((xorKeystream (KS k.key nonce) 0 (List.replicate 64 0)).take 32)
          (xorKeystream (KS k.key nonce) 64 plaintext) data) := by
    rw [Seal, if_neg (by simp [hn]), if_neg (by simp [hkey])]
    simp
  refine ⟨fun e => by simp [hseal], fun out hout => ?_⟩
  rw [hseal] at hout
  injection hout with hout
  subst hout
  rw [Open_valid_tag KS MAC k [] spare2 nonce
    (xorKeystream (KS k.key nonce) 64 plaintext) data hn hkey
    (by simpa [auth] using hMAC _ _)]
  simp [xorKeystream_xorKeystream]

/-- Witness for C1: a draft engine round-trips the plaintext `[5]` under the
all-zero key, AAD `[7]` and the concrete collaborators `KS0`/`MAC0`. -/
theorem seal_open_roundtrip_witness :
    (Seal KS0 MAC0 ⟨List.replicate 32 0, true⟩ [] [] (List.replicate 8 0)
      [5] [7]).1 ≠ .error .AuthFailed ∧
    (Open KS0 MAC0 ⟨List.replicate 32 0, true⟩ [] [] (List.replicate 8 0)
      (69 :: List.replicate 16 18) [7]).1 = .ok [5] :=
  ⟨(seal_open_roundtrip KS0 MAC0 (fun _ _ => by simp [MAC0, TagSize])
      ⟨List.replicate 32 0, true⟩ [] [] (List.replicate 8 0) [5] [7]
      (by decide) (by decide)).1 .AuthFailed,
   (seal_open_roundtrip KS0 MAC0 (fun _ _ => by simp [MAC0, TagSize])
      ⟨List.replicate 32 0, true⟩ [] [] (List.replicate 8 0) [5] [7]
      (by decide) (by decide)).2 (69 :: List.replicate 16 18) (by decide)⟩

/-- C3: for every dst, valid nonce, plaintext and AAD, `Seal` returns a slice
of length `len(dst) + len(plaintext) + Overhead` whose first `len(dst)` bytes
are the original contents of dst, followed by the ciphertext (the plaintext
XORed with keystream from position 64) and then the 16-byte tag. -/
theorem seal_length_contract (KS : List Nat → List Nat → Nat → Nat)
    (MAC : List Nat → List Nat → List Nat)
    (hMAC : ∀ key msg, (MAC key msg).length = TagSize) (k : chacha20Key)
    (dst spare nonce plaintext data : List Nat)
    (hn : nonce.length = NonceSize k) (hkey : k.key.length = KeySize) :
    ∀ l, (Seal KS MAC k dst spare nonce plaintext data).1 = .ok l →
      l.length = dst.length + plaintext.length + Overhead ∧
      l.take dst.length = dst ∧
      l = dst ++ xorKeystream (KS k.key nonce) 64 plaintext ++
        auth MAC k
          ((xorKeystream (KS k.key nonce) 0 (List.replicate 64 0)).take 32)
          (xorKeystream (KS k.key nonce) 64 plaintext) data := by
  intro l hl
  rw [Seal, if_neg (by simp [hn]), if_neg (by simp [hkey])] at hl
  injection hl with hl
  subst hl
  refine ⟨?_, ?_, rfl⟩
  · simp [xorKeystream_length, auth, hMAC, Overhead, TagSize]
    omega
  · rw [List.append_assoc, List.take_left]

/-- Witness for C3: concrete output of a draft `Seal` with a one-byte dst. -/
theorem seal_length_contract_witness :
    (1 :: 69 :: List.replicate 16 18).length = [1].length + [5].length + Overhead ∧
    (1 :: 69 :: List.replicate 16 18).take [1].length = [1] ∧
    1 :: 69 :: List.replicate 16 18 =
      [1] ++ xorKeystream (KS0 (List.replicate 32 0) (List.replicate 8 0)) 64 [5] ++
        auth MAC0 ⟨List.replicate 32 0, true⟩
          ((xorKeystream (KS0 (List.replicate 32 0) (List.replicate 8 0)) 0
            (List.replicate 64 0)).take 32)
          (xorKeystream (KS0 (List.replicate 32 0) (List.replicate 8 0)) 64 [5]) [7] :=
  seal_length_contract KS0 MAC0 (fun _ _ => by simp [MAC0, TagSize])
    ⟨List.replicate 32 0, true⟩ [1] [] (List.replicate 8 0) [5] [7]
    (by decide) (by decide) (1 :: 69 :: List.replicate 16 18) (by decide)

/-- Counterexample to C4 as stated: `SealRFC32` is the RFC-style `Seal` the
claim describes (only 32 keystream bytes reserved, so data encryption would
begin at stream position 32); at the all-zero key and nonce with plaintext
`[0]` it disagrees with the code's `Seal`: the code XORs the first plaintext
byte with keystream byte 64 (it reserves a full 64-byte block in the
RFC-style variant too), not with keystream byte 32. -/
theorem reserved_keystream_cex :
    (Seal KS0 MAC0 ⟨List.replicate 32 0, false⟩ [] []
      (List.replicate 12 0) [0] []).1 ≠
    (SealRFC32 KS0 MAC0 ⟨List.replicate 32 0, false⟩ [] []
      (List.replicate 12 0) [0] []).1 := by
  decide

/-- C4 (amended): in both `Seal` and `Open`, both variants generate exactly
one 64-byte block of keystream at counter 0 before encrypting: the first 32
generated bytes (stream positions 0–31) become the one-time MAC subkey, the
remaining 32 are discarded, and data encryption begins at stream position 64
(counter 1), so no reserved byte is ever reused as keystream for data. -/
theorem reserved_keystream_both_variants (KS : List Nat → List Nat → Nat → Nat)
    (MAC : List Nat → List Nat → List Nat)
    (hMAC : ∀ key msg, (MAC key msg).length = TagSize) (k : chacha20Key)
    (dst spare nonce plaintext data : List Nat)
    (hn : nonce.length = NonceSize k) (hkey : k.key.length = KeySize) :
    (Seal KS MAC k dst spare nonce plaintext data).1 =
      .ok (dst ++ xorKeystream (KS k.key nonce) 64 plaintext ++
        MAC ((List.range 32).map (KS k.key nonce))
          (authMessage k.draft
            (xorKeystream (KS k.key nonce) 64 plaintext) data)) ∧
    ∀ ct, (Open KS MAC k dst spare nonce
        (ct ++ MAC ((List.range 32).map (KS k.key nonce))
          (authMessage k.draft ct data)) data).1 =
      .ok (dst ++ xorKeystream (KS k.key nonce) 64 ct) := by
  have hsub : ∀ ct, auth MAC k
      ((xorKeystream (KS k.key nonce) 0 (List.replicate 64 0)).take 32) ct data =
      MAC ((List.range 32).map (KS k.key nonce)) (authMessage k.draft ct data) := by
    intro ct
    rw [auth, take32_reserved]
  constructor
  · rw [Seal, if_neg (by simp [hn]), if_neg (by simp [hkey])]
    dsimp only
    rw [hsub]
  · intro ct
    rw [← hsub ct,
      Open_valid_tag KS MAC k dst spare nonce ct data hn hkey
        (by simpa [auth] using hMAC _ _)]

/-- Witness for C4 (amended) with the concrete collaborators, an RFC-style
engine and the all-zero key and nonce. -/
theorem reserved_keystream_both_variants_witness :
    (Seal KS0 MAC0 ⟨List.replicate 32 0, false⟩ [] []
        (List.replicate 12 0) [6] []).1 =
      .ok ([] ++ xorKeystream (KS0 (List.replicate 32 0) (List.replicate 12 0)) 64 [6] ++
        MAC0 ((List.range 32).map (KS0 (List.replicate 32 0) (List.replicate 12 0)))
          (authMessage false
            (xorKeystream (KS0 (List.replicate 32 0) (List.replicate 12 0)) 64 [6]) [])) ∧
    (Open KS0 MAC0 ⟨List.replicate 32 0, false⟩ [] [] (List.replicate 12 0)
        ([1, 2] ++ MAC0 ((List.range 32).map (KS0 (List.replicate 32 0) (List.replicate 12 0)))
          (authMessage false [1, 2] [])) []).1 =
      .ok ([] ++ xorKeystream (KS0 (List.replicate 32 0) (List.replicate 12 0)) 64 [1, 2]) :=
  ⟨(reserved_keystream_both_variants KS0 MAC0 (fun _ _ => by simp [MAC0, TagSize])
      ⟨List.replicate 32 0, false⟩ [] [] (List.replicate 12 0) [6] []
      (by decide) (by decide)).1,
   (reserved_keystream_both_variants KS0 MAC0 (fun _ _ => by simp [MAC0, TagSize])
      ⟨List.replicate 32 0, false⟩ [] [] (List.replicate 12 0) [6] []
      (by decide) (by decide)).2 [1, 2]⟩

/-- Counterexample to C5 as stated: a failed `Open` does not leave the
destination region all-zero regardless of pre-fill.  With the draft engine,
the all-zero key, a valid nonce, a 17-byte input whose tag is wrong, and the
one-byte destination region pre-filled with 42, `Open` fails with
`AuthFailed` and the region still holds 42, not 0. -/
theorem open_authfail_zeroing_cex :
    Open KS0 MAC0 ⟨List.replicate 32 0, true⟩ [] [42] (List.replicate 8 0)
      (List.replicate 17 1) [] = (.error .AuthFailed, [42]) ∧
    ([42] : List Nat) ≠ List.replicate 1 0 := by
  decide

/-- C5 (amended): when `Open` fails with `AuthFailed`, the destination buffer
is left byte-for-byte unchanged — the tag is checked before any decryption,
so no plaintext (and no other) bytes are written; in particular it is
all-zero exactly when it was all-zero before the call, not regardless of
pre-fill. -/
theorem open_authfail_buffer_unchanged (KS : List Nat → List Nat → Nat → Nat)
    (MAC : List Nat → List Nat → List Nat) (k : chacha20Key)
    (dst spare nonce ciphertext data : List Nat)
    (h : (Open KS MAC k dst spare nonce ciphertext data).1 =
      .error .AuthFailed) :
    (Open KS MAC k dst spare nonce ciphertext data).2 = spare :=
  Open_error_snd KS MAC k dst spare nonce ciphertext data .AuthFailed h

/-- Witness for C5 (amended) on a concrete tag-mismatch failure. -/
theorem open_authfail_buffer_unchanged_witness :
    (Open KS0 MAC0 ⟨List.replicate 32 0, true⟩ [] [42] (List.replicate 8 0)
      (List.replicate 17 1) []).2 = [42] :=
  open_authfail_buffer_unchanged KS0 MAC0 ⟨List.replicate 32 0, true⟩
    [] [42] (List.replicate 8 0) (List.replicate 17 1) [] (by decide)

end Chacha20Poly1305
